import Mathlib

/-!
Verification of the cursor-pagination helper and the retrieval-augmented
answer pipeline of this repository.

The definitions below are a shallow embedding of:
  - src/backend/products_api.py (encode_cursor, decode_cursor, get_products),
  - src/backend/rag.py (RAGPipeline.query) and src/backend/utils.py
    (VectorStoreManager.similarity_search_with_score).

Python exceptions are modelled as values of `PyErr`; a `try/except` block
becomes a `match` on an `Except PyErr` result.  Python `bytes` are
`List Nat` with entries below 256, Python `str` is `String` (both index by
code point, as CPython does).  Machine-level concerns do not arise: Python
integers are unbounded, so they are `Int`/`Nat` directly.
-/

/-! ### Python exceptions

Only the exception classes that the embedded code can raise or catch are
modelled.  In CPython, `binascii.Error`, `UnicodeDecodeError` and
`json.JSONDecodeError` are all subclasses of `ValueError`; the predicate
`caughtInDecode` below encodes which constructors the clause
`except (json.JSONDecodeError, ValueError, KeyError)` of `decode_cursor`
(src/backend/products_api.py lines 92-96) catches. -/

inductive PyErr where
  | binasciiError (msg : String)
  | unicodeDecodeError (msg : String)
  | jsonDecodeError (msg : String)
  | valueError (msg : String)
  | keyError (msg : String)
  | attributeError (msg : String)
deriving DecidableEq

/-- `str(e)` for the modelled exceptions: the message they carry. -/
def PyErr.str : PyErr → String
  | .binasciiError m => m
  | .unicodeDecodeError m => m
  | .jsonDecodeError m => m
  | .valueError m => m
  | .keyError m => m
  | .attributeError m => m

/-- Which exceptions the clause
`except (json.JSONDecodeError, ValueError, KeyError)` catches.
Everything modelled except `AttributeError` is a `ValueError` subclass or
`KeyError`, hence caught; `AttributeError` is not. -/
def caughtInDecode : PyErr → Bool
  | .attributeError _ => false
  | _ => true

/-! ### UTF-8 (`str.encode('utf-8')` / `bytes.decode('utf-8')`) -/

/-- The UTF-8 bytes of one code point (CPython `str.encode('utf-8')`;
Lean strings hold no lone surrogates, so encoding never fails). -/
def utf8EncodeChar (c : Char) : List Nat :=
  let n := c.toNat
  if n < 0x80 then [n]
  else if n < 0x800 then [0xC0 + n / 64, 0x80 + n % 64]
  else if n < 0x10000 then [0xE0 + n / 4096, 0x80 + n / 64 % 64, 0x80 + n % 64]
  else [0xF0 + n / 262144, 0x80 + n / 4096 % 64, 0x80 + n / 64 % 64, 0x80 + n % 64]

/-- `s.encode('utf-8')` as a byte list. -/
def utf8Encode (s : String) : List Nat := (s.data.map utf8EncodeChar).flatten

/-- A UTF-8 continuation byte. -/
def isCont (b : Nat) : Bool := decide (0x80 ≤ b ∧ b ≤ 0xBF)

/-- One code point of strict UTF-8 (CPython `bytes.decode('utf-8')`):
the decoded character and the remaining bytes.  Bad start or continuation
bytes, truncated sequences, overlong forms and surrogates raise
`UnicodeDecodeError` as CPython does. -/
def utf8DecodeStep (b : Nat) (rest : List Nat) : Except PyErr (Char × List Nat) :=
  if b < 0x80 then .ok (Char.ofNat b, rest)
  else if 0xC2 ≤ b ∧ b ≤ 0xDF then
    match rest with
    | b2 :: rest2 =>
      if isCont b2 then .ok (Char.ofNat ((b - 0xC0) * 64 + (b2 - 0x80)), rest2)
      else .error (.unicodeDecodeError "invalid continuation byte")
    | [] => .error (.unicodeDecodeError "unexpected end of data")
  else if 0xE0 ≤ b ∧ b ≤ 0xEF then
    match rest with
    | b2 :: b3 :: rest2 =>
      if (if b = 0xE0 then decide (0xA0 ≤ b2 ∧ b2 ≤ 0xBF)
          else if b = 0xED then decide (0x80 ≤ b2 ∧ b2 ≤ 0x9F)
          else isCont b2) && isCont b3 then
        .ok (Char.ofNat ((b - 0xE0) * 4096 + (b2 - 0x80) * 64 + (b3 - 0x80)), rest2)
      else .error (.unicodeDecodeError "invalid continuation byte")
    | _ => .error (.unicodeDecodeError "unexpected end of data")
  else if 0xF0 ≤ b ∧ b ≤ 0xF4 then
    match rest with
    | b2 :: b3 :: b4 :: rest2 =>
      if (if b = 0xF0 then decide (0x90 ≤ b2 ∧ b2 ≤ 0xBF)
          else if b = 0xF4 then decide (0x80 ≤ b2 ∧ b2 ≤ 0x8F)
          else isCont b2) && isCont b3 && isCont b4 then
        .ok (Char.ofNat
          ((b - 0xF0) * 262144 + (b2 - 0x80) * 4096 + (b3 - 0x80) * 64 + (b4 - 0x80)), rest2)
      else .error (.unicodeDecodeError "invalid continuation byte")
    | _ => .error (.unicodeDecodeError "unexpected end of data")
  else .error (.unicodeDecodeError "invalid start byte")

/-- Decode code points until the input is exhausted; each step consumes at
least one byte, so fuel equal to the byte count always suffices. -/
def utf8DecodeLoop : Nat → List Nat → Except PyErr (List Char)
  | _, [] => .ok []
  | 0, _ :: _ => .error (.unicodeDecodeError "unexpected end of data")
  | fuel + 1, b :: rest => do
    let (c, rem) ← utf8DecodeStep b rest
    let cs ← utf8DecodeLoop fuel rem
    .ok (c :: cs)

/-- Strict UTF-8 decoding of a byte list. -/
def utf8DecodeAux (bytes : List Nat) : Except PyErr (List Char) :=
  utf8DecodeLoop bytes.length bytes

/-- `bytes.decode('utf-8')`. -/
def utf8DecodePy (bytes : List Nat) : Except PyErr String :=
  (utf8DecodeAux bytes).map String.mk

/-! ### Base64 (`base64.b64encode` / `base64.b64decode`) -/

/-- The standard base64 alphabet. -/
def b64Alphabet : List Char :=
  "ABCDEFGHIJKLMNOPQRSTUVWXYZabcdefghijklmnopqrstuvwxyz0123456789+/".data

/-- The alphabet character of a 6-bit value. -/
def b64Char (v : Nat) : Char := b64Alphabet.getD v 'A'

/-- `base64.b64encode`: three input bytes become four alphabet characters;
a short final group is completed with `=` padding. -/
def b64encodeBytes : List Nat → List Char
  | [] => []
  | [a] => [b64Char (a / 4), b64Char (a % 4 * 16), '=', '=']
  | [a, b] => [b64Char (a / 4), b64Char (a % 4 * 16 + b / 16), b64Char (b % 16 * 4), '=']
  | [a, b, c] =>
    [b64Char (a / 4), b64Char (a % 4 * 16 + b / 16), b64Char (b % 16 * 4 + c / 64),
      b64Char (c % 64)]
  | a :: b :: c :: d :: rest =>
    b64Char (a / 4) :: b64Char (a % 4 * 16 + b / 16) :: b64Char (b % 16 * 4 + c / 64)
      :: b64Char (c % 64) :: b64encodeBytes (d :: rest)

/-- The 6-bit value of an alphabet byte, `none` outside the alphabet. -/
def b64Val (b : Nat) : Option Nat :=
  if 65 ≤ b ∧ b ≤ 90 then some (b - 65)
  else if 97 ≤ b ∧ b ≤ 122 then some (b - 97 + 26)
  else if 48 ≤ b ∧ b ≤ 57 then some (b - 48 + 52)
  else if b = 43 then some 62
  else if b = 47 then some 63
  else none

/-- A byte kept by `b64decode`'s default non-validating scan: an alphabet
byte or the pad byte `=` (61). -/
def isB64Byte (b : Nat) : Bool := (b64Val b).isSome || decide (b = 61)

/-- Decoding of the retained characters, four at a time; a final group may
carry one or two `=` pads.  Anything else raises `binascii.Error` (a
`ValueError` subclass).  The model rejects a few inputs that CPython's
lenient scanner tolerates (such as data after the pad); no theorem below
depends on those inputs. -/
def b64decodeGroups : List Nat → Except PyErr (List Nat)
  | [] => .ok []
  | a :: b :: c :: d :: rest =>
    match b64Val a, b64Val b with
    | some va, some vb =>
      if c = 61 then
        if d = 61 ∧ rest = [] then .ok [va * 4 + vb / 16]
        else .error (.binasciiError "Invalid base64-encoded string")
      else
        match b64Val c with
        | some vc =>
          if d = 61 then
            if rest = [] then .ok [va * 4 + vb / 16, vb % 16 * 16 + vc / 4]
            else .error (.binasciiError "Invalid base64-encoded string")
          else
            match b64Val d with
            | some vd => do
              let tail ← b64decodeGroups rest
              .ok ((va * 4 + vb / 16) :: (vb % 16 * 16 + vc / 4) :: (vc % 4 * 64 + vd) :: tail)
            | none => .error (.binasciiError "Invalid base64-encoded string")
        | none => .error (.binasciiError "Invalid base64-encoded string")
    | _, _ => .error (.binasciiError "Invalid base64-encoded string")
  | _ => .error (.binasciiError "Incorrect padding")

/-- `base64.b64decode(bytes)` with the default `validate=False`: bytes
outside the alphabet are discarded before the group decode. -/
def b64decodePy (bytes : List Nat) : Except PyErr (List Nat) :=
  b64decodeGroups (bytes.filter isB64Byte)

/-! ### JSON (`json.dumps` / `json.loads`) -/

/-- A parsed JSON value as `json.loads` yields it.  A number with a
fraction or exponent becomes a Python `float`, kept here as its raw text:
the embedded code only ever asks `isinstance(x, int)` of it, which is
false for every float. -/
inductive Json where
  | null
  | bool (b : Bool)
  | int (n : Int)
  | float (raw : String)
  | str (s : String)
  | arr (elems : List Json)
  | obj (members : List (String × Json))

/-- The opening brace character. -/
def lbrace : Char := Char.ofNat 123

/-- The closing brace character. -/
def rbrace : Char := Char.ofNat 125

/-- JSON whitespace. -/
def isJsonWs (c : Char) : Bool := decide (c = ' ' ∨ c = '\t' ∨ c = '\n' ∨ c = '\r')

/-- Skip JSON whitespace. -/
def skipWs (cs : List Char) : List Char := cs.dropWhile isJsonWs

/-- An ASCII digit. -/
def isDigitCh (c : Char) : Bool := decide (48 ≤ c.toNat ∧ c.toNat ≤ 57)

/-- The value of an ASCII digit. -/
def charToDigit (c : Char) : Nat := c.toNat - 48

/-- The number a most-significant-first digit list denotes. -/
def digitsToNat (ds : List Char) : Nat := ds.foldl (fun a c => a * 10 + charToDigit c) 0

/-- The character a single-character JSON escape stands for. -/
def escChar (c : Char) : Option Char :=
  if c = '"' then some '"'
  else if c = '\\' then some '\\'
  else if c = '/' then some '/'
  else if c = 'b' then some (Char.ofNat 8)
  else if c = 'f' then some (Char.ofNat 12)
  else if c = 'n' then some '\n'
  else if c = 'r' then some (Char.ofNat 13)
  else if c = 't' then some '\t'
  else none

/-- The body of a JSON string literal, after its opening quote; returns the
decoded characters and the input after the closing quote.  `\uXXXX`
escapes and the control-character check are not modelled; no theorem below
feeds a token that needs them. -/
def parseStringBody : List Char → Except PyErr (List Char × List Char)
  | [] => .error (.jsonDecodeError "Unterminated string")
  | c :: rest =>
    if c = '"' then .ok ([], rest)
    else if c = '\\' then
      match rest with
      | [] => .error (.jsonDecodeError "Unterminated string")
      | e :: rest2 =>
        match escChar e with
        | some ec => do
          let (cs, rem) ← parseStringBody rest2
          .ok (ec :: cs, rem)
        | none => .error (.jsonDecodeError "Invalid escape")
    else do
      let (cs, rem) ← parseStringBody rest
      .ok (c :: cs, rem)

/-- A JSON number: an optional minus sign and digits give a Python `int`;
a following `.`/`e`/`E` makes a `float`, kept as raw text. -/
def parseNumber (cs : List Char) : Except PyErr (Json × List Char) :=
  let neg : Bool := decide (cs.head? = some '-')
  let cs1 := if neg then cs.tail else cs
  let ds := cs1.takeWhile isDigitCh
  let rest := cs1.dropWhile isDigitCh
  if ds = [] then .error (.jsonDecodeError "Expecting value")
  else
    match rest with
    | c :: _ =>
      if c = '.' ∨ c = 'e' ∨ c = 'E' then
        let ext := rest.takeWhile (fun x =>
          isDigitCh x || decide (x = '.' ∨ x = 'e' ∨ x = 'E' ∨ x = '+' ∨ x = '-'))
        let rest2 := rest.dropWhile (fun x =>
          isDigitCh x || decide (x = '.' ∨ x = 'e' ∨ x = 'E' ∨ x = '+' ∨ x = '-'))
        .ok (.float (String.mk ((if neg then ['-'] else []) ++ ds ++ ext)), rest2)
      else
        .ok (.int (if neg then -(digitsToNat ds : Int) else (digitsToNat ds : Int)), rest)
    | [] => .ok (.int (if neg then -(digitsToNat ds : Int) else (digitsToNat ds : Int)), rest)

/-- The literal `true` after its first character. -/
def parseTrueLit (cs : List Char) : Except PyErr (Json × List Char) :=
  match cs with
  | c1 :: c2 :: c3 :: rem =>
    if c1 = 'r' ∧ c2 = 'u' ∧ c3 = 'e' then .ok (.bool true, rem)
    else .error (.jsonDecodeError "Expecting value")
  | _ => .error (.jsonDecodeError "Expecting value")

/-- The literal `false` after its first character. -/
def parseFalseLit (cs : List Char) : Except PyErr (Json × List Char) :=
  match cs with
  | c1 :: c2 :: c3 :: c4 :: rem =>
    if c1 = 'a' ∧ c2 = 'l' ∧ c3 = 's' ∧ c4 = 'e' then .ok (.bool false, rem)
    else .error (.jsonDecodeError "Expecting value")
  | _ => .error (.jsonDecodeError "Expecting value")

/-- The literal `null` after its first character. -/
def parseNullLit (cs : List Char) : Except PyErr (Json × List Char) :=
  match cs with
  | c1 :: c2 :: c3 :: rem =>
    if c1 = 'u' ∧ c2 = 'l' ∧ c3 = 'l' then .ok (.null, rem)
    else .error (.jsonDecodeError "Expecting value")
  | _ => .error (.jsonDecodeError "Expecting value")

/-- An object after its opening brace: empty, or members parsed by `pm`. -/
def parseObjBody (pm : List Char → Except PyErr (List (String × Json) × List Char))
    (rest : List Char) : Except PyErr (Json × List Char) :=
  match skipWs rest with
  | [] => .error (.jsonDecodeError "Expecting property name enclosed in double quotes")
  | d :: rem =>
    if d = rbrace then .ok (.obj [], rem)
    else do
      let (ms, rem2) ← pm (skipWs rest)
      .ok (.obj ms, rem2)

/-- An array after its opening bracket: empty, or elements parsed by `pe`. -/
def parseArrBody (pe : List Char → Except PyErr (List Json × List Char))
    (rest : List Char) : Except PyErr (Json × List Char) :=
  match skipWs rest with
  | [] => .error (.jsonDecodeError "Expecting value")
  | d :: rem =>
    if d = ']' then .ok (.arr [], rem)
    else do
      let (vs, rem2) ← pe (skipWs rest)
      .ok (.arr vs, rem2)

/-- After one parsed member: a comma continues with `pm`, a closing brace
ends the object. -/
def afterMember (pm : List Char → Except PyErr (List (String × Json) × List Char))
    (key : String) (v : Json) (rem3 : List Char) :
    Except PyErr (List (String × Json) × List Char) :=
  match skipWs rem3 with
  | [] => .error (.jsonDecodeError "Expecting delimiter")
  | d :: rem4 =>
    if d = ',' then do
      let (ms, rem5) ← pm rem4
      .ok ((key, v) :: ms, rem5)
    else if d = rbrace then .ok ([(key, v)], rem4)
    else .error (.jsonDecodeError "Expecting delimiter")

mutual

/-- A JSON value, with fuel bounding the recursion depth; every recursive
call first consumes at least one input character, so `length + 1` fuel
always suffices. -/
def parseValue : Nat → List Char → Except PyErr (Json × List Char)
  | 0, _ => .error (.jsonDecodeError "Too deeply nested")
  | _ + 1, [] => .error (.jsonDecodeError "Expecting value")
  | fuel + 1, c :: rest =>
    if c = lbrace then parseObjBody (parseMembers fuel) rest
    else if c = '[' then parseArrBody (parseElems fuel) rest
    else if c = '"' then do
      let (cs2, rem) ← parseStringBody rest
      .ok (.str (String.mk cs2), rem)
    else if c = 't' then parseTrueLit rest
    else if c = 'f' then parseFalseLit rest
    else if c = 'n' then parseNullLit rest
    else if isDigitCh c || decide (c = '-') then parseNumber (c :: rest)
    else .error (.jsonDecodeError "Expecting value")

/-- The members of a JSON object, after its opening brace (and not facing
an immediate closing brace); consumes through the closing brace. -/
def parseMembers : Nat → List Char → Except PyErr (List (String × Json) × List Char)
  | 0, _ => .error (.jsonDecodeError "Too deeply nested")
  | fuel + 1, cs =>
    match skipWs cs with
    | [] => .error (.jsonDecodeError "Expecting property name enclosed in double quotes")
    | d :: rest =>
      if d = '"' then do
        let (key, rem1) ← parseStringBody rest
        match skipWs rem1 with
        | [] => .error (.jsonDecodeError "Expecting colon delimiter")
        | d2 :: rem2 =>
          if d2 = ':' then do
            let (v, rem3) ← parseValue fuel (skipWs rem2)
            afterMember (parseMembers fuel) (String.mk key) v rem3
          else .error (.jsonDecodeError "Expecting colon delimiter")
      else .error (.jsonDecodeError "Expecting property name enclosed in double quotes")

/-- The elements of a JSON array, after its opening bracket (and not facing
an immediate closing bracket); consumes through the closing bracket. -/
def parseElems : Nat → List Char → Except PyErr (List Json × List Char)
  | 0, _ => .error (.jsonDecodeError "Too deeply nested")
  | fuel + 1, cs => do
    let (v, rem1) ← parseValue fuel (skipWs cs)
    match skipWs rem1 with
    | [] => .error (.jsonDecodeError "Expecting delimiter")
    | d :: rem2 =>
      if d = ',' then do
        let (vs, rem3) ← parseElems fuel rem2
        .ok (v :: vs, rem3)
      else if d = ']' then .ok ([v], rem2)
      else .error (.jsonDecodeError "Expecting delimiter")

end

/-- `json.loads`: one JSON value, surrounded only by whitespace. -/
def jsonLoads (s : String) : Except PyErr Json := do
  let (v, rest) ← parseValue (s.length + 1) (skipWs s.data)
  if skipWs rest = [] then .ok v else .error (.jsonDecodeError "Extra data")

/-- The Python type name of a parsed JSON value. -/
def jsonTypeName : Json → String
  | .null => "NoneType"
  | .bool _ => "bool"
  | .int _ => "int"
  | .float _ => "float"
  | .str _ => "str"
  | .arr _ => "list"
  | .obj _ => "dict"

/-- `value.get(key)`: on a dict, the key's value (`none` when absent; with
a duplicated key `json.loads` keeps the last, hence the reversed lookup);
on any other value, an `AttributeError` — exactly what
`cursor_data.get('id')` does on a non-dict payload. -/
def pyDictGet (j : Json) (key : String) : Except PyErr (Option Json) :=
  match j with
  | .obj ms => .ok (ms.reverse.lookup key)
  | _ => .error (.attributeError ("'" ++ jsonTypeName j ++ "' object has no attribute 'get'"))

/-! ### The cursor codec (src/backend/products_api.py lines 67-96; the
copy in src/backend/app.py lines 30-53 is textually identical) -/

/-- A Python value passing `isinstance(x, int)`: an `int` proper or a
`bool` (CPython's `bool` is a subclass of `int`, `True` counting as 1). -/
inductive PyInt where
  | int (n : Int)
  | bool (b : Bool)
deriving DecidableEq

/-- The integer value of a `PyInt` (`True` is 1, `False` is 0). -/
def PyInt.toInt : PyInt → Int
  | .int n => n
  | .bool b => if b then 1 else 0

/-- The digit character of `d`. -/
def digitCh (d : Nat) : Char := Char.ofNat (48 + d)

/-- The decimal digits of a positive number, most significant first; the
fuel bounds the digit count, `n` itself always being enough. -/
def natToCharsAux : Nat → Nat → List Char
  | 0, _ => []
  | fuel + 1, n => if n = 0 then [] else natToCharsAux fuel (n / 10) ++ [digitCh (n % 10)]

/-- The decimal digits of `n`, most significant first. -/
def natToChars (n : Nat) : List Char :=
  if n = 0 then [digitCh 0] else natToCharsAux (n + 1) n

/-- Python's decimal rendering of an integer. -/
def intToChars (n : Int) : List Char :=
  if n < 0 then '-' :: natToChars n.natAbs else natToChars n.natAbs

/-- `json.dumps({'id': product_id})`: with the default separators the
serializer emits a space after the colon and no other whitespace. -/
def json_dumps_id (n : Int) : String :=
  "\x7b\"id\": " ++ String.mk (intToChars n) ++ "\x7d"

/-- `encode_cursor` (src/backend/products_api.py lines 67-75): serialize
`{'id': product_id}` to JSON, UTF-8-encode, base64-encode. -/
def encode_cursor (product_id : Int) : String :=
  String.mk (b64encodeBytes (utf8Encode (json_dumps_id product_id)))

/-- The `try` body of `decode_cursor` (src/backend/products_api.py lines
83-91): base64-decode, UTF-8-decode, parse JSON, take `.get('id')`, then
require `isinstance(product_id, int) and product_id >= 0` (a `bool` passes
the `isinstance` check, and neither `True` nor `False` is negative). -/
def decode_cursor_body (cursor : String) : Except PyErr PyInt := do
  let bytes ← b64decodePy (utf8Encode cursor)
  let decoded ← utf8DecodePy bytes
  let j ← jsonLoads decoded
  let pid ← pyDictGet j "id"
  match pid with
  | some (.int n) =>
    if n < 0 then .error (.valueError "Invalid product ID in cursor") else .ok (.int n)
  | some (.bool b) => .ok (.bool b)
  | _ => .error (.valueError "Invalid product ID in cursor")

/-- How a call into the API layer fails: an `HTTPException` raised on
purpose (status, detail), or an exception nothing catches. -/
inductive ApiFailure where
  | httpException (status : Nat) (detail : String)
  | uncaught (e : PyErr)
deriving DecidableEq

/-- `decode_cursor` (src/backend/products_api.py lines 78-96): the body
above under `except (json.JSONDecodeError, ValueError, KeyError)`, which
re-raises caught failures as `HTTPException(400, ...)`; an exception
outside that clause (the `AttributeError` of `.get` on a non-dict)
propagates uncaught. -/
def decode_cursor (cursor : String) : Except ApiFailure PyInt :=
  match decode_cursor_body cursor with
  | .ok v => .ok v
  | .error e =>
    if caughtInDecode e then .error (.httpException 400 ("Invalid cursor format: " ++ e.str))
    else .error (.uncaught e)

/-! ### The paginated listing (src/backend/products_api.py lines 105-169)

The endpoint body is parametrized here by the product list it reads
(`MOCK_PRODUCTS` in the file, "in production, replace with actual
database" per its comment).  FastAPI validates `limit` against
`ge=1, le=100` before the body runs, so theorems carry that bound as a
hypothesis.  The `price: float` field of the source's `Product` model is
omitted: no branch of the endpoint reads it. -/

/-- A product row; only `id` steers pagination. -/
structure Product where
  id : Int
  name : String
  category : String
  in_stock : Bool
deriving DecidableEq

/-- The `pagination` object of a response. -/
structure PaginationMetadata where
  limit : Nat
  next_cursor : Option String
  has_next : Bool
  count : Nat
deriving DecidableEq

/-- A `/products` response. -/
structure ProductsResponse where
  data : List Product
  pagination : PaginationMetadata
deriving DecidableEq

/-- The body of `get_products` after the cursor has been decoded to
`last_id` (lines 146-169): filter to `id > last_id`, fetch `limit + 1`,
flag `has_next`, truncate, and encode the last returned id as the next
cursor when `has_next and products` holds. -/
def list_page (db : List Product) (limit : Nat) (last_id : Int) : ProductsResponse :=
  let filtered_products := db.filter (fun p => decide (last_id < p.id))
  let products_page := filtered_products.take (limit + 1)
  let has_next : Bool := decide (limit < products_page.length)
  let products := products_page.take limit
  let next_cursor_value : Option String :=
    match has_next, products.getLast? with
    | true, some p => some (encode_cursor p.id)
    | _, _ => none
  { data := products,
    pagination :=
      { limit := limit, next_cursor := next_cursor_value, has_next := has_next,
        count := products.length } }

/-- `get_products` (lines 105-169): `last_id` starts at 0 and is replaced
by the decoded cursor when one is given (`if next_cursor:` is false for
both `None` and the empty string); a decoding failure propagates out of
the endpoint. -/
def get_products (db : List Product) (limit : Nat) (next_cursor : Option String) :
    Except ApiFailure ProductsResponse :=
  match next_cursor with
  | none => .ok (list_page db limit 0)
  | some c =>
    if c = "" then .ok (list_page db limit 0)
    else
      match decode_cursor c with
      | .ok v => .ok (list_page db limit v.toInt)
      | .error e => .error e

/-- The client iteration the spec describes (and the JavaScript sample at
the end of src/backend/products_api.py implements): request a page, keep
its `data`, and follow `next_cursor` while `has_next` holds.  Returns the
pages only when the loop reaches `has_next = false` within `fuel` steps
with no request failing, so a `some` result asserts termination. -/
def followPages (db : List Product) (limit : Nat) :
    Nat → Option String → Option (List (List Product))
  | 0, _ => none
  | fuel + 1, cursor =>
    match get_products db limit cursor with
    | .error _ => none
    | .ok r =>
      if r.pagination.has_next then
        match followPages db limit fuel r.pagination.next_cursor with
        | some rest => some (r.data :: rest)
        | none => none
      else some [r.data]

/-! ### The retrieval layer (src/backend/utils.py lines 147-171)

The vector index (ChromaDB) is an external collaborator: its
`similarity_search_with_score` call is modelled as an arbitrary function
that returns scored documents or raises.  Similarity scores are floats
the embedded code only passes along, never computes with, so they stay a
type parameter `σ`; the `f"{score:.4f}"` rendering used inside the prompt
is likewise an opaque function. -/

/-- A retrieved LangChain document: text plus string metadata. -/
structure Document where
  page_content : String
  metadata : List (String × String)
deriving DecidableEq

/-- `doc.metadata.get('source', 'unknown')`. -/
def Document.sourceOf (d : Document) : String :=
  match d.metadata.lookup "source" with
  | some s => s
  | none => "unknown"

/-- `VectorStoreManager` state: `vector_store` is `None` until
`load_vector_store`/`create_vector_store` succeeds; when present it
carries the index's query behaviour as an opaque function from (query,
k) to scored documents or an exception. -/
structure VectorStoreManager (σ : Type) where
  vector_store : Option (String → Nat → Except PyErr (List (Document × σ)))

/-- `VectorStoreManager.similarity_search_with_score` (src/backend/utils.py
lines 147-171): `[]` when the store is uninitialized; otherwise the
index's result, with any exception caught, logged and turned into `[]`. -/
def VectorStoreManager.similarity_search_with_score
    (vm : VectorStoreManager σ) (query : String) (k : Nat) : List (Document × σ) :=
  match vm.vector_store with
  | none => []
  | some f =>
    match f query k with
    | .ok results => results
    | .error _ => []

/-! ### The answer pipeline (src/backend/rag.py lines 82-157)

`EnhancedRAGPipeline.query` (src/backend/enhanced_rag.py lines 145-220)
is textually identical to `RAGPipeline.query`; the one embedding covers
both.  The LLM is an external collaborator: an opaque function from the
formatted prompt to the completion's `content` or an exception. -/

/-- The pipeline state `query` reads: the vector store manager, the
retrieval count, the LLM client's `invoke`, and the opaque float
rendering of a relevance score. -/
structure RAGPipeline (σ : Type) where
  vector_manager : VectorStoreManager σ
  retrieval_k : Nat
  llm_invoke : String → Except PyErr String
  formatScore : σ → String

/-- One entry of `source_documents`: content truncated to 200 characters
(with a `"..."` suffix when longer), the `source` metadata, the score. -/
structure SourceInfo (σ : Type) where
  content : String
  source : String
  relevance_score : σ

/-- The dictionary `query` returns.  The success dictionary carries a
`num_sources` key and no `error` key; every failure dictionary carries an
`error` key and no `num_sources`; `Option` models the key's presence. -/
structure QueryResult (σ : Type) where
  question : String
  answer : String
  source_documents : List (SourceInfo σ)
  num_sources : Option Nat
  error : Option String

/-- The fixed prompt template of src/backend/rag.py lines 64-73 with
`context` and `question` interpolated (`self.prompt.format(...)`). -/
def promptFormat (context question : String) : String :=
  "Use the following pieces of context to answer the question at the end.\n" ++
  "If you don't know the answer based on the context, just say that you don't know, " ++
  "don't try to make up an answer.\n" ++
  "Always cite the source documents when possible.\n\nContext:\n" ++ context ++
  "\n\nQuestion: " ++ question ++ "\n\nAnswer: "

/-- The context block: each document labelled with its 1-based rank and
rendered score, blocks joined by blank lines (lines 122-125). -/
def buildContext (fmt : σ → String) (dws : List (Document × σ)) : String :=
  String.intercalate "\n\n"
    ((dws.enum.map fun e =>
      "Document " ++ toString (e.1 + 1) ++ " (Relevance: " ++ fmt e.2.2 ++ "):\n"
        ++ e.2.1.page_content))

/-- The first `n` characters of a string. -/
def strTake (s : String) (n : Nat) : String := String.mk (s.data.take n)

/-- One `source_documents` entry (lines 134-139); `float(score)` is the
identity on an already-float score. -/
def mkSourceInfo (ds : Document × σ) : SourceInfo σ :=
  { content :=
      if 200 < ds.1.page_content.length
      then strTake ds.1.page_content 200 ++ "..."
      else ds.1.page_content,
    source := ds.1.sourceOf,
    relevance_score := ds.2 }

/-- `RAGPipeline.query` (src/backend/rag.py lines 82-157).  The outer
`try/except Exception` leaves `Except` only at the LLM call, the one step
inside the body that can still raise: `similarity_search_with_score`
catches its own failures, and the precondition/empty-retrieval branches
return directly.  The result type being plain `QueryResult` is the
embedded form of "query never propagates an exception". -/
def RAGPipeline.query (p : RAGPipeline σ) (question : String) : QueryResult σ :=
  match p.vector_manager.vector_store with
  | none =>
    { question := question,
      answer := "Vector store not initialized. Please run setup_db.py first.",
      source_documents := [], num_sources := none,
      error := some "Vector store not available" }
  | some _ =>
    let docs_with_scores :=
      p.vector_manager.similarity_search_with_score question p.retrieval_k
    if docs_with_scores.isEmpty then
      { question := question,
        answer := "I couldn't find any relevant information to answer your question.",
        source_documents := [], num_sources := none,
        error := some "No relevant documents found" }
    else
      let context := buildContext p.formatScore docs_with_scores
      let formatted_prompt := promptFormat context question
      match p.llm_invoke formatted_prompt with
      | .ok answer =>
        let sources := docs_with_scores.map mkSourceInfo
        { question := question, answer := answer,
          source_documents := sources, num_sources := some sources.length,
          error := none }
      | .error e =>
        { question := question,
          answer := "Sorry, I encountered an error while processing your question.",
          source_documents := [], num_sources := none,
          error := some e.str }

/-! ## Theorems about the answer pipeline -/

/-- **C6.** For every question string, calling `query` on a pipeline whose
vector index handle is unready (`vector_store` is `None`) returns a result
with the `error` field set and a fixed, deterministic fallback answer
string, without raising an exception and without invoking embedding,
similarity search, or the generative model.  The pipeline `p` — and with
it the index-query and LLM collaborator functions — is universally
quantified and absent from the fixed right-hand side, which is the
embedded form of "those collaborators are not invoked"; `query` returning
a plain `QueryResult` (not an `Except`) is the embedded form of "never
raises". -/
theorem claim6_query_unready_index (σ : Type) (p : RAGPipeline σ) (question : String)
    (h : p.vector_manager.vector_store = none) :
    p.query question =
      { question := question,
        answer := "Vector store not initialized. Please run setup_db.py first.",
        source_documents := [], num_sources := none,
        error := some "Vector store not available" } := by
  unfold RAGPipeline.query
  rw [h]

/-- A pipeline whose vector store was never populated, with collaborators
that would be visible if they were ever called. -/
def unreadyPipeline : RAGPipeline Int :=
  { vector_manager := ⟨none⟩, retrieval_k := 5,
    llm_invoke := fun _ => .ok "llm was invoked", formatScore := fun _ => "0.0000" }

/-- C6 at a concrete input. -/
theorem claim6_query_unready_index_witness :
    unreadyPipeline.vector_manager.vector_store = none ∧
    unreadyPipeline.query "anything" =
      { question := "anything",
        answer := "Vector store not initialized. Please run setup_db.py first.",
        source_documents := [], num_sources := none,
        error := some "Vector store not available" } :=
  ⟨rfl, claim6_query_unready_index Int unreadyPipeline "anything" rfl⟩

/-- **C7.** For every question, if the vector index query returns zero
(passage, score) pairs, `query` returns a result whose answer is the
'no relevant information' fallback string and whose `error` field is set,
and the generative model is never invoked on that call.  `p.llm_invoke`
is universally quantified and absent from the right-hand side: no LLM
call takes place. -/
theorem claim7_query_empty_retrieval (σ : Type) (p : RAGPipeline σ)
    (f : String → Nat → Except PyErr (List (Document × σ))) (question : String)
    (h1 : p.vector_manager.vector_store = some f)
    (h2 : f question p.retrieval_k = .ok []) :
    p.query question =
      { question := question,
        answer := "I couldn't find any relevant information to answer your question.",
        source_documents := [], num_sources := none,
        error := some "No relevant documents found" } := by
  unfold RAGPipeline.query
  rw [h1]
  simp [VectorStoreManager.similarity_search_with_score, h1, h2]

/-- A pipeline whose index is loaded but matches nothing. -/
def emptyIndexPipeline : RAGPipeline Int :=
  { vector_manager := ⟨some fun _ _ => .ok []⟩, retrieval_k := 5,
    llm_invoke := fun _ => .ok "llm was invoked", formatScore := fun _ => "0.0000" }

/-- C7 at a concrete input. -/
theorem claim7_query_empty_retrieval_witness :
    emptyIndexPipeline.vector_manager.vector_store = some (fun _ _ => .ok []) ∧
    emptyIndexPipeline.query "What is ROS2?" =
      { question := "What is ROS2?",
        answer := "I couldn't find any relevant information to answer your question.",
        source_documents := [], num_sources := none,
        error := some "No relevant documents found" } :=
  ⟨rfl, claim7_query_empty_retrieval Int emptyIndexPipeline (fun _ _ => .ok [])
    "What is ROS2?" rfl rfl⟩

/-- **C8 (amended).** Exceptions raised by the generation collaborator are
caught at the pipeline boundary and become the generic apology answer
with `str(e)` as the error; but exceptions raised by the
embedding/index-query collaborator are absorbed into an empty result by
`similarity_search_with_score` (src/backend/utils.py lines 147-171), so
`query` then returns the 'no relevant information' result whose error is
the fixed string "No relevant documents found", not `str(e)`.  Either
way `query` propagates nothing — its result type is a plain
`QueryResult`. -/
theorem claim8_query_failure_semantics (σ : Type) (p : RAGPipeline σ)
    (f : String → Nat → Except PyErr (List (Document × σ))) (question : String)
    (e : PyErr)
    (h1 : p.vector_manager.vector_store = some f) :
    (∀ dws, f question p.retrieval_k = .ok dws → dws ≠ [] →
      p.llm_invoke (promptFormat (buildContext p.formatScore dws) question) = .error e →
      p.query question =
        { question := question,
          answer := "Sorry, I encountered an error while processing your question.",
          source_documents := [], num_sources := none,
          error := some e.str }) ∧
    (f question p.retrieval_k = .error e →
      p.query question =
        { question := question,
          answer := "I couldn't find any relevant information to answer your question.",
          source_documents := [], num_sources := none,
          error := some "No relevant documents found" }) := by
  constructor
  · intro dws hok hne hllm
    unfold RAGPipeline.query
    rw [h1]
    simp only [VectorStoreManager.similarity_search_with_score, h1, hok]
    have hie : dws.isEmpty = false := by simp [List.isEmpty_iff, hne]
    simp [hie, hllm]
  · intro herr
    unfold RAGPipeline.query
    rw [h1]
    simp [VectorStoreManager.similarity_search_with_score, h1, herr]

/-- A pipeline whose index query raises `ValueError('boom')`, and whose
LLM would answer if it were ever invoked. -/
def failingIndexPipeline : RAGPipeline Int :=
  { vector_manager := ⟨some fun _ _ => .error (.valueError "boom")⟩, retrieval_k := 5,
    llm_invoke := fun _ => .ok "llm was invoked", formatScore := fun _ => "0.0000" }

/-- Counterexample to C8 as stated: the index-query collaborator raises
`ValueError('boom')` during `query`, yet the result is the
'no relevant information' fallback whose error field is the fixed string
"No relevant documents found" — not the generic apology answer, and not
`str(e) = "boom"`. -/
theorem claim8_counterexample :
    (failingIndexPipeline.query "q").answer =
        "I couldn't find any relevant information to answer your question." ∧
    (failingIndexPipeline.query "q").error = some "No relevant documents found" ∧
    (failingIndexPipeline.query "q").answer ≠
        "Sorry, I encountered an error while processing your question." ∧
    (failingIndexPipeline.query "q").error ≠ some ((PyErr.valueError "boom").str) := by
  refine ⟨rfl, rfl, ?_, ?_⟩ <;> decide

/-- A pipeline identical to `failingIndexPipeline` except that its LLM
always raises `RuntimeError`-like failure, to exercise C8's generation
branch concretely. -/
def failingLlmPipeline : RAGPipeline Int :=
  { vector_manager := ⟨some fun _ _ => .ok [(⟨"ROS2 is a robotics middleware.",
      [("source", "chapter1.md")]⟩, 42)]⟩, retrieval_k := 5,
    llm_invoke := fun _ => .error (.valueError "rate limited"),
    formatScore := fun _ => "42.0000" }

/-- C8 (amended) at concrete inputs: the generation branch on
`failingLlmPipeline` and the retrieval branch on `failingIndexPipeline`. -/
theorem claim8_query_failure_semantics_witness :
    failingLlmPipeline.vector_manager.vector_store =
      some (fun _ _ => .ok [(⟨"ROS2 is a robotics middleware.",
        [("source", "chapter1.md")]⟩, 42)]) ∧
    failingLlmPipeline.query "q" =
      { question := "q",
        answer := "Sorry, I encountered an error while processing your question.",
        source_documents := [], num_sources := none,
        error := some "rate limited" } :=
  ⟨rfl,
    ((claim8_query_failure_semantics Int failingLlmPipeline
      (fun _ _ => .ok [(⟨"ROS2 is a robotics middleware.",
        [("source", "chapter1.md")]⟩, 42)]) "q" (.valueError "rate limited") rfl).1
      [(⟨"ROS2 is a robotics middleware.", [("source", "chapter1.md")]⟩, 42)]
      rfl (by decide) rfl)⟩

/-- **C10.** `similarity_search_with_score` converts every exception
raised by the underlying vector-index query into an empty result list (it
never propagates the exception — its return type is a plain list), so a
failed index query is indistinguishable from zero matches at the
retrieval interface, and the pipeline's `query` consequently reports the
'No relevant documents found' error for an index failure rather than the
generic apology error. -/
theorem claim10_search_absorbs_index_failure (σ : Type) (vm : VectorStoreManager σ)
    (p : RAGPipeline σ) (f : String → Nat → Except PyErr (List (Document × σ)))
    (q : String) (k : Nat) (e : PyErr)
    (h1 : vm.vector_store = some f) (h2 : f q k = .error e)
    (h3 : p.vector_manager = vm) (h4 : p.retrieval_k = k) :
    vm.similarity_search_with_score q k = [] ∧
    p.query q =
      { question := q,
        answer := "I couldn't find any relevant information to answer your question.",
        source_documents := [], num_sources := none,
        error := some "No relevant documents found" } := by
  constructor
  · simp [VectorStoreManager.similarity_search_with_score, h1, h2]
  · unfold RAGPipeline.query
    rw [h3, h1]
    simp [VectorStoreManager.similarity_search_with_score, h1, h2, h4]

/-- C10 at a concrete input, reusing `failingIndexPipeline`. -/
theorem claim10_search_absorbs_index_failure_witness :
    failingIndexPipeline.vector_manager.vector_store =
      some (fun _ _ => .error (.valueError "boom")) ∧
    failingIndexPipeline.vector_manager.similarity_search_with_score "q" 5 = [] ∧
    failingIndexPipeline.query "q" =
      { question := "q",
        answer := "I couldn't find any relevant information to answer your question.",
        source_documents := [], num_sources := none,
        error := some "No relevant documents found" } := by
  refine ⟨rfl, ?_⟩
  have h := claim10_search_absorbs_index_failure Int
    failingIndexPipeline.vector_manager failingIndexPipeline
    (fun _ _ => .error (.valueError "boom")) "q" 5 (.valueError "boom")
    rfl rfl rfl rfl
  exact h

/-! ## Lemmas: decimal printing and parsing -/

/-- Reading back a printed digit. -/
theorem charToDigit_digitCh : ∀ d, d < 10 → charToDigit (digitCh d) = d := by decide

/-- A printed digit is a digit character. -/
theorem isDigitCh_digitCh : ∀ d, d < 10 → isDigitCh (digitCh d) = true := by decide

/-- Folding one more digit. -/
theorem digitsToNat_append_digit (xs : List Char) (c : Char) :
    digitsToNat (xs ++ [c]) = digitsToNat xs * 10 + charToDigit c := by
  simp [digitsToNat, List.foldl_append]

/-- The printer/parser round trip on the digit part. -/
theorem digitsToNat_natToCharsAux :
    ∀ fuel n, n < fuel → digitsToNat (natToCharsAux fuel n) = n := by
  intro fuel
  induction fuel with
  | zero => intro n h; omega
  | succ fuel ih =>
    intro n h
    by_cases h0 : n = 0
    · subst h0; rfl
    · have hlt : n / 10 < fuel := by omega
      have hstep : natToCharsAux (fuel + 1) n =
          natToCharsAux fuel (n / 10) ++ [digitCh (n % 10)] := by
        simp [natToCharsAux, h0]
      rw [hstep, digitsToNat_append_digit, ih _ hlt,
        charToDigit_digitCh _ (Nat.mod_lt _ (by omega))]
      omega

/-- `digitsToNat` inverts `natToChars`. -/
theorem digitsToNat_natToChars (n : Nat) : digitsToNat (natToChars n) = n := by
  by_cases h0 : n = 0
  · subst h0; rfl
  · unfold natToChars
    rw [if_neg h0]
    exact digitsToNat_natToCharsAux (n + 1) n (by omega)

/-- Every printed character is a digit. -/
theorem natToCharsAux_all_digits :
    ∀ fuel n, ∀ c ∈ natToCharsAux fuel n, isDigitCh c = true := by
  intro fuel
  induction fuel with
  | zero => intro n c hc; simp [natToCharsAux] at hc
  | succ fuel ih =>
    intro n c hc
    by_cases h0 : n = 0
    · simp [natToCharsAux, h0] at hc
    · simp only [natToCharsAux, h0, if_false, List.mem_append, List.mem_singleton] at hc
      rcases hc with hc | hc
      · exact ih _ _ hc
      · subst hc; exact isDigitCh_digitCh _ (Nat.mod_lt _ (by omega))

/-- Every character of `natToChars` is a digit. -/
theorem natToChars_all_digits (n : Nat) : ∀ c ∈ natToChars n, isDigitCh c = true := by
  intro c hc
  unfold natToChars at hc
  by_cases h0 : n = 0
  · simp [h0] at hc
    subst hc
    exact isDigitCh_digitCh 0 (by omega)
  · rw [if_neg h0] at hc
    exact natToCharsAux_all_digits _ _ _ hc

/-- `natToChars` never prints nothing. -/
theorem natToChars_ne_nil (n : Nat) : natToChars n ≠ [] := by
  unfold natToChars
  by_cases h0 : n = 0
  · simp [h0]
  · rw [if_neg h0]
    have : natToCharsAux (n + 1) n = natToCharsAux n (n / 10) ++ [digitCh (n % 10)] := by
      simp [natToCharsAux, h0]
    simp [this]

/-- A digit character is not JSON whitespace. -/
theorem isJsonWs_of_digit (c : Char) (h : isDigitCh c = true) : isJsonWs c = false := by
  simp only [isDigitCh, decide_eq_true_eq] at h
  obtain ⟨h1, h2⟩ := h
  simp only [isJsonWs, decide_eq_false_iff_not]
  rintro (rfl | rfl | rfl | rfl) <;> revert h1 h2 <;> decide

/-- A digit character is none of the value-discriminating characters of
`parseValue`, nor a minus sign, a closing brace or a comma. -/
theorem digit_char_ne (c : Char) (h : isDigitCh c = true) :
    c ≠ lbrace ∧ c ≠ '[' ∧ c ≠ '"' ∧ c ≠ 't' ∧ c ≠ 'f' ∧ c ≠ 'n' ∧ c ≠ '-' := by
  simp only [isDigitCh, decide_eq_true_eq] at h
  obtain ⟨h1, h2⟩ := h
  refine ⟨?_, ?_, ?_, ?_, ?_, ?_, ?_⟩ <;> rintro rfl <;> revert h1 h2 <;> decide

/-- `takeWhile isDigitCh` splits a digit run from a closing brace. -/
theorem takeWhile_digits_rbrace (xs : List Char) (hxs : ∀ c ∈ xs, isDigitCh c = true) :
    (xs ++ [rbrace]).takeWhile isDigitCh = xs := by
  induction xs with
  | nil => decide
  | cons a as ih =>
    have ha : isDigitCh a = true := hxs a (List.mem_cons_self a as)
    simp only [List.cons_append, List.takeWhile_cons, ha, if_true]
    rw [ih fun c hc => hxs c (List.mem_cons_of_mem a hc)]

/-- `dropWhile isDigitCh` leaves the closing brace. -/
theorem dropWhile_digits_rbrace (xs : List Char) (hxs : ∀ c ∈ xs, isDigitCh c = true) :
    (xs ++ [rbrace]).dropWhile isDigitCh = [rbrace] := by
  induction xs with
  | nil => decide
  | cons a as ih =>
    have ha : isDigitCh a = true := hxs a (List.mem_cons_self a as)
    simp only [List.cons_append, List.dropWhile_cons, ha, if_true]
    exact ih fun c hc => hxs c (List.mem_cons_of_mem a hc)

/-- `parseNumber` reads back a printed non-negative integer and stops at
the closing brace. -/
theorem parseNumber_natToChars (n : Nat) :
    parseNumber (natToChars n ++ [rbrace]) = .ok (.int (n : Int), [rbrace]) := by
  obtain ⟨c0, cs0, heq⟩ := List.exists_cons_of_ne_nil (natToChars_ne_nil n)
  have hc0 : isDigitCh c0 = true :=
    natToChars_all_digits n c0 (by rw [heq]; exact List.mem_cons_self _ _)
  have hcm : c0 ≠ '-' := (digit_char_ne c0 hc0).2.2.2.2.2.2
  have hneg : ((natToChars n ++ [rbrace]).head? = some '-') = False := by
    rw [heq]
    simp [hcm]
  unfold parseNumber
  simp only [hneg, decide_False, Bool.false_eq_true, if_false,
    takeWhile_digits_rbrace _ (natToChars_all_digits n),
    dropWhile_digits_rbrace _ (natToChars_all_digits n)]
  rw [if_neg (natToChars_ne_nil n)]
  have hbr : ¬(rbrace = '.' ∨ rbrace = 'e' ∨ rbrace = 'E') := by decide
  rw [if_neg hbr, digitsToNat_natToChars]

/-! ## Lemmas: parsing the serialized envelope -/

/-- Reducing a successful `Except` bind. -/
theorem except_bind_ok {α β ε : Type} (a : α) (f : α → Except ε β) :
    (Except.ok (ε := ε) a >>= f) = f a := rfl

/-- A closing quote ends a string body. -/
theorem parseStringBody_closing (rest : List Char) :
    parseStringBody ('"' :: rest) = .ok ([], rest) := by
  unfold parseStringBody
  simp

/-- The key `"id"` of the envelope parses back. -/
theorem parseStringBody_id (rest : List Char) :
    parseStringBody ('i' :: 'd' :: '"' :: rest) = .ok (['i', 'd'], rest) := by
  simp [parseStringBody, parseStringBody_closing, except_bind_ok]

/-- On input headed by a digit, `parseValue` dispatches to `parseNumber`. -/
theorem parseValue_digit_head (k : Nat) (c0 : Char) (cs : List Char)
    (h : isDigitCh c0 = true) :
    parseValue (k + 1) (c0 :: cs) = parseNumber (c0 :: cs) := by
  obtain ⟨h1, h2, h3, h4, h5, h6, _⟩ := digit_char_ne c0 h
  unfold parseValue
  simp [h1, h2, h3, h4, h5, h6, h]

/-- Whitespace skipping stops at the digits of the printed id. -/
theorem skipWs_space_natToChars (n : Nat) :
    skipWs (' ' :: (natToChars n ++ [rbrace])) = natToChars n ++ [rbrace] := by
  obtain ⟨c0, cs0, heq⟩ := List.exists_cons_of_ne_nil (natToChars_ne_nil n)
  have hc0 : isDigitCh c0 = true :=
    natToChars_all_digits n c0 (by rw [heq]; exact List.mem_cons_self _ _)
  rw [heq]
  simp [skipWs, List.dropWhile_cons, isJsonWs_of_digit c0 hc0]
  decide

/-- The member list `"id": N}` of the envelope parses back. -/
theorem parseMembers_id (k n : Nat) :
    parseMembers (k + 2) ('"' :: 'i' :: 'd' :: '"' :: ':' :: ' ' :: (natToChars n ++ [rbrace])) =
      .ok ([("id", .int (n : Int))], []) := by
  obtain ⟨c0, cs0, heq⟩ := List.exists_cons_of_ne_nil (natToChars_ne_nil n)
  have hc0 : isDigitCh c0 = true :=
    natToChars_all_digits n c0 (by rw [heq]; exact List.mem_cons_self _ _)
  have hpv : parseValue (k + 1) (natToChars n ++ [rbrace]) = .ok (.int (n : Int), [rbrace]) := by
    rw [heq, List.cons_append, parseValue_digit_head k c0 (cs0 ++ [rbrace]) hc0,
      ← List.cons_append, ← heq, parseNumber_natToChars]
  have hq : isJsonWs '"' = false := by decide
  have hcolon : isJsonWs ':' = false := by decide
  have hrb : isJsonWs rbrace = false := by decide
  have hrbc : rbrace ≠ ',' := by decide
  unfold parseMembers
  rw [show skipWs ('"' :: 'i' :: 'd' :: '"' :: ':' :: ' ' :: (natToChars n ++ [rbrace])) =
      '"' :: 'i' :: 'd' :: '"' :: ':' :: ' ' :: (natToChars n ++ [rbrace]) by
    simp [skipWs, List.dropWhile_cons, hq]]
  simp only [parseStringBody_id, except_bind_ok]
  rw [show skipWs (':' :: ' ' :: (natToChars n ++ [rbrace])) =
      ':' :: ' ' :: (natToChars n ++ [rbrace]) by
    simp [skipWs, List.dropWhile_cons, hcolon]]
  simp only [skipWs_space_natToChars n, hpv, except_bind_ok]
  unfold afterMember
  rw [show skipWs [rbrace] = [rbrace] by simp [skipWs, List.dropWhile_cons, hrb]]
  simp [hrbc]

/-- The full envelope text `{"id": N}` parses to the expected object. -/
theorem parseValue_dumps (k n : Nat) :
    parseValue (k + 3)
      (lbrace :: '"' :: 'i' :: 'd' :: '"' :: ':' :: ' ' :: (natToChars n ++ [rbrace])) =
      .ok (.obj [("id", .int (n : Int))], []) := by
  have hq : isJsonWs '"' = false := by decide
  have hqr : ('"' : Char) ≠ rbrace := by decide
  unfold parseValue
  simp only [eq_self_iff_true, if_true]
  unfold parseObjBody
  rw [show skipWs ('"' :: 'i' :: 'd' :: '"' :: ':' :: ' ' :: (natToChars n ++ [rbrace])) =
      '"' :: 'i' :: 'd' :: '"' :: ':' :: ' ' :: (natToChars n ++ [rbrace]) by
    simp [skipWs, List.dropWhile_cons, hq]]
  simp only [hqr, if_false]
  rw [parseMembers_id k n]
  rfl

/-- The serialized envelope's character list. -/
theorem json_dumps_id_data (n : Nat) :
    (json_dumps_id (n : Int)).data =
      lbrace :: '"' :: 'i' :: 'd' :: '"' :: ':' :: ' ' :: (natToChars n ++ [rbrace]) := by
  unfold json_dumps_id intToChars
  rw [if_neg (by omega : ¬((n : Int) < 0)), Int.natAbs_ofNat]
  rw [String.data_append, String.data_append]
  have h1 : ("\x7b\"id\": " : String).data = [lbrace, '"', 'i', 'd', '"', ':', ' '] := by decide
  have h2 : ("\x7d" : String).data = [rbrace] := by decide
  have h3 : (String.mk (natToChars n)).data = natToChars n := rfl
  rw [h1, h2, h3, List.append_assoc]
  rfl

/-- `json.loads` inverts `json.dumps({'id': n})` for non-negative `n`. -/
theorem jsonLoads_dumps (n : Nat) :
    jsonLoads (json_dumps_id (n : Int)) = .ok (.obj [("id", .int (n : Int))]) := by
  have hlen : (json_dumps_id (n : Int)).length + 1 = ((natToChars n).length + 6) + 3 := by
    have h : (json_dumps_id (n : Int)).length = (json_dumps_id (n : Int)).data.length := rfl
    rw [h, json_dumps_id_data]
    simp
  unfold jsonLoads
  rw [json_dumps_id_data, hlen]
  have hlb : isJsonWs lbrace = false := by decide
  rw [show skipWs (lbrace :: '"' :: 'i' :: 'd' :: '"' :: ':' :: ' '
      :: (natToChars n ++ [rbrace])) =
      lbrace :: '"' :: 'i' :: 'd' :: '"' :: ':' :: ' ' :: (natToChars n ++ [rbrace]) by
    simp [skipWs, List.dropWhile_cons, hlb]]
  rw [parseValue_dumps ((natToChars n).length + 6) n]
  rfl

/-! ## Lemmas: base64 and UTF-8 round trips -/

/-- Decoding an alphabet character recovers its 6-bit value. -/
theorem b64Val_b64Char : ∀ v, v < 64 → b64Val (b64Char v).toNat = some v := by decide

/-- Alphabet characters are ASCII. -/
theorem b64Char_toNat_lt : ∀ v, v < 64 → (b64Char v).toNat < 128 := by decide

/-- Alphabet characters are not the pad byte. -/
theorem b64Char_toNat_ne_61 : ∀ v, v < 64 → (b64Char v).toNat ≠ 61 := by decide

/-- Alphabet characters survive the non-validating scan. -/
theorem isB64Byte_b64Char : ∀ v, v < 64 → isB64Byte (b64Char v).toNat = true := by decide

/-- Every character `b64encodeBytes` emits is ASCII and survives the
non-validating scan of `b64decode`. -/
theorem b64encodeBytes_chars :
    ∀ (len : Nat) (bs : List Nat), bs.length ≤ len → (∀ x ∈ bs, x < 256) →
      ∀ c ∈ b64encodeBytes bs, c.toNat < 128 ∧ isB64Byte c.toNat = true := by
  intro len
  induction len with
  | zero =>
    intro bs hlen _ c hc
    have hnil : bs = [] := List.length_eq_zero.mp (Nat.le_zero.mp hlen)
    subst hnil
    simp [b64encodeBytes] at hc
  | succ len ih =>
    intro bs hlen hbs c hc
    have hpad : (61 : Nat) < 128 ∧ isB64Byte 61 = true := by decide
    match bs with
    | [] => simp [b64encodeBytes] at hc
    | [a] =>
      have ha := hbs a (by simp)
      simp only [b64encodeBytes, List.mem_cons, List.mem_singleton] at hc
      rcases hc with rfl | rfl | rfl | hc
      · exact ⟨b64Char_toNat_lt _ (by omega), isB64Byte_b64Char _ (by omega)⟩
      · exact ⟨b64Char_toNat_lt _ (by omega), isB64Byte_b64Char _ (by omega)⟩
      · exact hpad
      · simp at hc
        subst hc
        exact hpad
    | [a, b] =>
      have ha := hbs a (by simp)
      have hb := hbs b (by simp)
      simp only [b64encodeBytes, List.mem_cons, List.mem_singleton] at hc
      rcases hc with rfl | rfl | rfl | hc
      · exact ⟨b64Char_toNat_lt _ (by omega), isB64Byte_b64Char _ (by omega)⟩
      · exact ⟨b64Char_toNat_lt _ (by omega), isB64Byte_b64Char _ (by omega)⟩
      · exact ⟨b64Char_toNat_lt _ (by omega), isB64Byte_b64Char _ (by omega)⟩
      · simp at hc
        subst hc
        exact hpad
    | [a, b, d] =>
      have ha := hbs a (by simp)
      have hb := hbs b (by simp)
      have hd := hbs d (by simp)
      simp only [b64encodeBytes, List.mem_cons, List.mem_singleton] at hc
      rcases hc with rfl | rfl | rfl | hc
      · exact ⟨b64Char_toNat_lt _ (by omega), isB64Byte_b64Char _ (by omega)⟩
      · exact ⟨b64Char_toNat_lt _ (by omega), isB64Byte_b64Char _ (by omega)⟩
      · exact ⟨b64Char_toNat_lt _ (by omega), isB64Byte_b64Char _ (by omega)⟩
      · simp at hc
        subst hc
        exact ⟨b64Char_toNat_lt _ (by omega), isB64Byte_b64Char _ (by omega)⟩
    | a :: b :: d :: e :: rest =>
      have ha := hbs a (by simp)
      have hb := hbs b (by simp)
      have hd := hbs d (by simp)
      simp only [b64encodeBytes, List.mem_cons] at hc
      rcases hc with rfl | rfl | rfl | rfl | hc
      · exact ⟨b64Char_toNat_lt _ (by omega), isB64Byte_b64Char _ (by omega)⟩
      · exact ⟨b64Char_toNat_lt _ (by omega), isB64Byte_b64Char _ (by omega)⟩
      · exact ⟨b64Char_toNat_lt _ (by omega), isB64Byte_b64Char _ (by omega)⟩
      · exact ⟨b64Char_toNat_lt _ (by omega), isB64Byte_b64Char _ (by omega)⟩
      · exact ih (e :: rest) (by simp at hlen ⊢; omega)
          (fun x hx => hbs x (by simp at hx ⊢; tauto)) c hc

/-- Decoding inverts encoding on the retained characters. -/
theorem b64decodeGroups_encode :
    ∀ (len : Nat) (bs : List Nat), bs.length ≤ len → (∀ x ∈ bs, x < 256) →
      b64decodeGroups ((b64encodeBytes bs).map Char.toNat) = .ok bs := by
  intro len
  induction len with
  | zero =>
    intro bs hlen _
    have hnil : bs = [] := List.length_eq_zero.mp (Nat.le_zero.mp hlen)
    subst hnil
    rfl
  | succ len ih =>
    intro bs hlen hbs
    have h61 : ('=' : Char).toNat = 61 := rfl
    match bs with
    | [] => rfl
    | [a] =>
      have ha := hbs a (by simp)
      have e1 : b64Val (b64Char (a / 4)).toNat = some (a / 4) := b64Val_b64Char _ (by omega)
      have e2 : b64Val (b64Char (a % 4 * 16)).toNat = some (a % 4 * 16) :=
        b64Val_b64Char _ (by omega)
      simp only [b64encodeBytes, List.map_cons, List.map_nil, h61]
      unfold b64decodeGroups
      simp [e1, e2]
      omega
    | [a, b] =>
      have ha := hbs a (by simp)
      have hb := hbs b (by simp)
      have e1 : b64Val (b64Char (a / 4)).toNat = some (a / 4) := b64Val_b64Char _ (by omega)
      have e2 : b64Val (b64Char (a % 4 * 16 + b / 16)).toNat = some (a % 4 * 16 + b / 16) :=
        b64Val_b64Char _ (by omega)
      have e3 : (b64Char (b % 16 * 4)).toNat ≠ 61 := b64Char_toNat_ne_61 _ (by omega)
      have e4 : b64Val (b64Char (b % 16 * 4)).toNat = some (b % 16 * 4) :=
        b64Val_b64Char _ (by omega)
      simp only [b64encodeBytes, List.map_cons, List.map_nil, h61]
      unfold b64decodeGroups
      simp [e1, e2, e3, e4]
      omega
    | [a, b, d] =>
      have ha := hbs a (by simp)
      have hb := hbs b (by simp)
      have hd := hbs d (by simp)
      have e1 : b64Val (b64Char (a / 4)).toNat = some (a / 4) := b64Val_b64Char _ (by omega)
      have e2 : b64Val (b64Char (a % 4 * 16 + b / 16)).toNat = some (a % 4 * 16 + b / 16) :=
        b64Val_b64Char _ (by omega)
      have e3 : (b64Char (b % 16 * 4 + d / 64)).toNat ≠ 61 :=
        b64Char_toNat_ne_61 _ (by omega)
      have e4 : b64Val (b64Char (b % 16 * 4 + d / 64)).toNat = some (b % 16 * 4 + d / 64) :=
        b64Val_b64Char _ (by omega)
      have e5 : (b64Char (d % 64)).toNat ≠ 61 := b64Char_toNat_ne_61 _ (by omega)
      have e6 : b64Val (b64Char (d % 64)).toNat = some (d % 64) := b64Val_b64Char _ (by omega)
      simp only [b64encodeBytes, List.map_cons, List.map_nil, h61]
      unfold b64decodeGroups
      simp [e1, e2, e3, e4, e5, e6, except_bind_ok,
        show b64decodeGroups [] = .ok [] from rfl]
      omega
    | a :: b :: d :: e :: rest =>
      have ha := hbs a (by simp)
      have hb := hbs b (by simp)
      have hd := hbs d (by simp)
      have htail : b64decodeGroups ((b64encodeBytes (e :: rest)).map Char.toNat) =
          .ok (e :: rest) := by
        refine ih (e :: rest) ?_ (fun x hx => hbs x (by simp at hx ⊢; tauto))
        simp at hlen ⊢
        omega
      have e1 : b64Val (b64Char (a / 4)).toNat = some (a / 4) := b64Val_b64Char _ (by omega)
      have e2 : b64Val (b64Char (a % 4 * 16 + b / 16)).toNat = some (a % 4 * 16 + b / 16) :=
        b64Val_b64Char _ (by omega)
      have e3 : (b64Char (b % 16 * 4 + d / 64)).toNat ≠ 61 :=
        b64Char_toNat_ne_61 _ (by omega)
      have e4 : b64Val (b64Char (b % 16 * 4 + d / 64)).toNat = some (b % 16 * 4 + d / 64) :=
        b64Val_b64Char _ (by omega)
      have e5 : (b64Char (d % 64)).toNat ≠ 61 := b64Char_toNat_ne_61 _ (by omega)
      have e6 : b64Val (b64Char (d % 64)).toNat = some (d % 64) := b64Val_b64Char _ (by omega)
      simp only [b64encodeBytes, List.map_cons]
      unfold b64decodeGroups
      simp [e1, e2, e3, e4, e5, e6, htail, except_bind_ok]
      omega

/-- A character below 128 encodes as its single code point. -/
theorem utf8EncodeChar_ascii (c : Char) (h : c.toNat < 128) :
    utf8EncodeChar c = [c.toNat] := by
  simp [utf8EncodeChar, h]

/-- Encoding an ASCII character list yields exactly the code points. -/
theorem utf8Encode_mk_ascii (cs : List Char) (h : ∀ c ∈ cs, c.toNat < 128) :
    utf8Encode (String.mk cs) = cs.map Char.toNat := by
  induction cs with
  | nil => rfl
  | cons c cs ih =>
    have hc := h c (List.mem_cons_self _ _)
    have ihh := ih (fun x hx => h x (List.mem_cons_of_mem _ hx))
    have hd1 : (String.mk (c :: cs)).data = c :: cs := rfl
    have hd2 : (String.mk cs).data = cs := rfl
    simp only [utf8Encode, hd1, hd2, List.map_cons, List.flatten_cons] at ihh ⊢
    rw [utf8EncodeChar_ascii c hc, ihh]
    rfl

/-- Decoding the code points of ASCII characters restores them. -/
theorem utf8DecodeLoop_ascii (cs : List Char) :
    ∀ fuel, cs.length ≤ fuel → (∀ c ∈ cs, c.toNat < 128) →
      utf8DecodeLoop fuel (cs.map Char.toNat) = .ok cs := by
  induction cs with
  | nil => intro fuel _ _; cases fuel <;> rfl
  | cons c cs ih =>
    intro fuel hfuel h
    have hc := h c (List.mem_cons_self _ _)
    match fuel with
    | f + 1 =>
      have ihh := ih f (by simp at hfuel; omega) (fun x hx => h x (List.mem_cons_of_mem _ hx))
      simp only [List.map_cons]
      rw [utf8DecodeLoop]
      rw [show utf8DecodeStep c.toNat (cs.map Char.toNat) =
          .ok (Char.ofNat c.toNat, cs.map Char.toNat) by
        unfold utf8DecodeStep
        rw [if_pos (show c.toNat < 0x80 by omega)]]
      rw [except_bind_ok]
      show (do
        let cs2 ← utf8DecodeLoop f (cs.map Char.toNat)
        Except.ok (Char.ofNat c.toNat :: cs2)) = Except.ok (c :: cs)
      rw [ihh, except_bind_ok, Char.ofNat_toNat]

/-- Decoding the code points of ASCII characters restores them. -/
theorem utf8DecodeAux_ascii (cs : List Char) (h : ∀ c ∈ cs, c.toNat < 128) :
    utf8DecodeAux (cs.map Char.toNat) = .ok cs := by
  unfold utf8DecodeAux
  exact utf8DecodeLoop_ascii cs _ (by simp) h

/-- Every byte of a single encoded code point is below 256. -/
theorem utf8EncodeChar_lt_256 (c : Char) : ∀ b ∈ utf8EncodeChar c, b < 256 := by
  have hv : c.toNat < 1114112 := by
    rcases c.valid with h | ⟨h1, h2⟩ <;> simp [Char.toNat] <;> omega
  intro b hb
  unfold utf8EncodeChar at hb
  dsimp only at hb
  split_ifs at hb with h1 h2 h3
  · simp at hb; omega
  · simp at hb; rcases hb with rfl | rfl <;> omega
  · simp at hb; rcases hb with rfl | rfl | rfl <;> omega
  · simp at hb; rcases hb with rfl | rfl | rfl | rfl <;> omega

/-- Every byte `utf8Encode` emits is below 256. -/
theorem utf8Encode_lt_256 (s : String) : ∀ b ∈ utf8Encode s, b < 256 := by
  intro b hb
  simp only [utf8Encode, List.mem_flatten, List.mem_map] at hb
  obtain ⟨l, ⟨c, _, rfl⟩, hbl⟩ := hb
  exact utf8EncodeChar_lt_256 c b hbl

/-- Digit characters are ASCII. -/
theorem isDigit_lt_128 (c : Char) (h : isDigitCh c = true) : c.toNat < 128 := by
  simp only [isDigitCh, decide_eq_true_eq] at h
  omega

/-- The serialized envelope is pure ASCII. -/
theorem json_dumps_id_ascii (n : Nat) :
    ∀ c ∈ (json_dumps_id (n : Int)).data, c.toNat < 128 := by
  intro c hc
  rw [json_dumps_id_data] at hc
  simp only [List.mem_cons, List.mem_append, List.mem_singleton] at hc
  rcases hc with rfl | rfl | rfl | rfl | rfl | rfl | rfl | hmem | rfl | h0
  · decide
  · decide
  · decide
  · decide
  · decide
  · decide
  · decide
  · exact isDigit_lt_128 c (natToChars_all_digits n c hmem)
  · decide
  · exact absurd h0 (List.not_mem_nil c)

/-! ## The cursor-codec claims -/

/-- The codec round trip, as a lemma the pagination results reuse. -/
theorem decode_cursor_encode_cursor (n : Int) (h : 0 ≤ n) :
    decode_cursor (encode_cursor n) = .ok (.int n) := by
  obtain ⟨m, rfl⟩ := Int.eq_ofNat_of_zero_le h
  have hascii := json_dumps_id_ascii m
  have hbytes : utf8Encode (json_dumps_id (m : Int)) =
      (json_dumps_id (m : Int)).data.map Char.toNat :=
    utf8Encode_mk_ascii ((json_dumps_id (m : Int)).data) hascii
  have hb256 : ∀ x ∈ utf8Encode (json_dumps_id (m : Int)), x < 256 :=
    utf8Encode_lt_256 _
  have hchars := b64encodeBytes_chars (utf8Encode (json_dumps_id (m : Int))).length
    (utf8Encode (json_dumps_id (m : Int))) (le_refl _) hb256
  have h1 : utf8Encode (encode_cursor (m : Int)) =
      (b64encodeBytes (utf8Encode (json_dumps_id (m : Int)))).map Char.toNat := by
    unfold encode_cursor
    exact utf8Encode_mk_ascii _ (fun c hc => (hchars c hc).1)
  have h2 : b64decodePy (utf8Encode (encode_cursor (m : Int))) =
      .ok (utf8Encode (json_dumps_id (m : Int))) := by
    rw [h1]
    unfold b64decodePy
    rw [List.filter_eq_self.mpr (fun x hx => by
      obtain ⟨c, hc, rfl⟩ := List.mem_map.mp hx
      exact (hchars c hc).2)]
    exact b64decodeGroups_encode _ _ (le_refl _) hb256
  have h3 : utf8DecodePy (utf8Encode (json_dumps_id (m : Int))) =
      .ok (json_dumps_id (m : Int)) := by
    unfold utf8DecodePy
    rw [hbytes, utf8DecodeAux_ascii _ hascii]
    rfl
  have h4 := jsonLoads_dumps m
  unfold decode_cursor decode_cursor_body
  rw [h2, except_bind_ok, h3, except_bind_ok, h4, except_bind_ok]
  rw [show pyDictGet (Json.obj [("id", Json.int (m : Int))]) "id" =
      Except.ok (some (Json.int (m : Int))) from rfl, except_bind_ok]
  have hneg : ¬((m : Int) < 0) := by omega
  simp [hneg]

/-- **C2.** For every non-negative integer `n`,
`decode_cursor(encode_cursor(n)) == n`; both functions are embedded as
pure Lean functions, mirroring that their Python bodies only construct
local values (purity).  The decoded value is the Python int `n` itself. -/
theorem claim2_roundtrip (n : Int) (h : 0 ≤ n) :
    decode_cursor (encode_cursor n) = .ok (.int n) :=
  decode_cursor_encode_cursor n h

/-- C2 at the concrete input the spec's scenario names:
`decode(encode(10)) == 10`. -/
theorem claim2_roundtrip_witness :
    (0 : Int) ≤ 10 ∧ decode_cursor (encode_cursor 10) = .ok (.int 10) :=
  ⟨by decide, claim2_roundtrip 10 (by decide)⟩

/-- **C1 (the failing case).** The token `"NQ=="` is valid base64 of the
bytes `"5"`, which decode to the JSON integer `5` — valid JSON that is
not an object.  `cursor_data.get('id')` then raises `AttributeError`,
which the clause `except (json.JSONDecodeError, ValueError, KeyError)`
does not catch, so `decode_cursor` propagates an uncaught exception
instead of the claimed `HTTPException(400)` — despite its own docstring
"Raises HTTPException if cursor is invalid". -/
theorem claim1_nondict_payload_uncaught :
    decode_cursor "NQ==" =
      .error (.uncaught (.attributeError "'int' object has no attribute 'get'")) := rfl

/-- **C9.** `decode_cursor` accepts the boolean payload `{"id": true}`:
`isinstance(True, int)` holds in Python (`bool` is an `int` subclass) and
`True < 0` is false, so the cursor decodes to `True`, whose integer value
is 1 — the set of accepted payloads is strictly larger than the
non-negative JSON integers. -/
theorem claim9_bool_payload_accepted :
    decode_cursor (String.mk (b64encodeBytes (utf8Encode "\x7b\"id\": true\x7d"))) =
      .ok (.bool true) ∧ (PyInt.bool true).toInt = 1 :=
  ⟨rfl, rfl⟩

/-! ## Lemmas: the paginated listing -/

/-- The ordering pagination relies on: strictly increasing primary keys. -/
def prodLt (p q : Product) : Prop := p.id < q.id

/-- `b64encodeBytes` emits at least one character per input byte triple. -/
theorem b64encodeBytes_ne_nil (bs : List Nat) (h : bs ≠ []) : b64encodeBytes bs ≠ [] := by
  match bs with
  | [] => exact absurd rfl h
  | [a] => simp [b64encodeBytes]
  | [a, b] => simp [b64encodeBytes]
  | [a, b, c] => simp [b64encodeBytes]
  | a :: b :: c :: d :: rest => simp [b64encodeBytes]

/-- An encoded cursor is never the empty string (so `if next_cursor:` is
true for it). -/
theorem encode_cursor_ne_empty (n : Int) (h : 0 ≤ n) : encode_cursor n ≠ "" := by
  obtain ⟨m, rfl⟩ := Int.eq_ofNat_of_zero_le h
  have hbytes : utf8Encode (json_dumps_id (m : Int)) =
      (json_dumps_id (m : Int)).data.map Char.toNat :=
    utf8Encode_mk_ascii ((json_dumps_id (m : Int)).data) (json_dumps_id_ascii m)
  have hne : utf8Encode (json_dumps_id (m : Int)) ≠ [] := by
    rw [hbytes, json_dumps_id_data]
    simp
  unfold encode_cursor
  intro hcontra
  have : b64encodeBytes (utf8Encode (json_dumps_id (m : Int))) = [] := by
    have := congrArg String.data hcontra
    simpa using this
  exact b64encodeBytes_ne_nil _ hne this

/-- A request carrying `encode_cursor w` runs the page body at watermark
`w` (src/backend/products_api.py lines 141-144 plus the codec round
trip). -/
theorem get_products_encoded (db : List Product) (L : Nat) (w : Int) (hw : 0 ≤ w) :
    get_products db L (some (encode_cursor w)) = .ok (list_page db L w) := by
  unfold get_products
  show (if encode_cursor w = "" then Except.ok (list_page db L 0)
    else match decode_cursor (encode_cursor w) with
      | Except.ok v => Except.ok (list_page db L v.toInt)
      | Except.error e => Except.error e) = Except.ok (list_page db L w)
  rw [if_neg (encode_cursor_ne_empty w hw), decode_cursor_encode_cursor w hw]
  rfl

/-- A request with no cursor runs the page body at watermark 0. -/
theorem get_products_none (db : List Product) (L : Nat) :
    get_products db L none = .ok (list_page db L 0) := rfl

/-- The returned page is the first `limit` filtered items. -/
theorem list_page_data (db : List Product) (L : Nat) (w : Int) :
    (list_page db L w).data = (db.filter (fun p => decide (w < p.id))).take L := by
  simp [list_page, List.take_take, Nat.min_eq_left (by omega : L ≤ L + 1)]

/-- `count` is the returned page's length. -/
theorem list_page_count (db : List Product) (L : Nat) (w : Int) :
    (list_page db L w).pagination.count = (list_page db L w).data.length := rfl

/-- `limit` is echoed back. -/
theorem list_page_limit (db : List Product) (L : Nat) (w : Int) :
    (list_page db L w).pagination.limit = L := rfl

/-- The has-more flag holds exactly when more than `limit` items pass the
watermark. -/
theorem list_page_has_next (db : List Product) (L : Nat) (w : Int) :
    (list_page db L w).pagination.has_next =
      decide (L < (db.filter (fun p => decide (w < p.id))).length) := by
  simp only [list_page, List.length_take]
  exact decide_eq_decide.mpr (by omega)

/-- In a strictly increasing list, every key is at most the last one. -/
theorem id_le_getLast_of_sorted (db : List Product) :
    ∀ (p : Product), List.Pairwise prodLt db → db.getLast? = some p →
      ∀ q ∈ db, q.id ≤ p.id := by
  induction db with
  | nil => intro p _ hl; simp at hl
  | cons a as ih =>
    intro p hs hl q hq
    rcases List.pairwise_cons.mp hs with ⟨ha, hs2⟩
    cases as with
    | nil =>
      have hap : a = p := by simpa using hl
      have hqa : q = a := by simpa using hq
      rw [hqa, hap]
    | cons b bs =>
      rw [List.getLast?_cons_cons] at hl
      rcases List.mem_cons.mp hq with rfl | hq2
      · have hpmem : p ∈ b :: bs :=
          List.mem_of_mem_getLast? (by rw [hl]; exact Option.mem_some_iff.mpr rfl)
        exact le_of_lt (ha p hpmem)
      · exact ih p hs2 hl q hq2

/-- The full shape of one page at watermark `w`. -/
theorem list_page_eq (db : List Product) (L : Nat) (w : Int) :
    list_page db L w =
      { data := (db.filter (fun p => decide (w < p.id))).take L,
        pagination :=
          { limit := L,
            next_cursor :=
              match decide (L < (db.filter (fun p => decide (w < p.id))).length),
                  ((db.filter (fun p => decide (w < p.id))).take L).getLast? with
                | true, some p => some (encode_cursor p.id)
                | _, _ => none,
            has_next := decide (L < (db.filter (fun p => decide (w < p.id))).length),
            count := ((db.filter (fun p => decide (w < p.id))).take L).length } } := by
  unfold list_page
  dsimp only
  have h1 : ((db.filter (fun p => decide (w < p.id))).take (L + 1)).take L =
      (db.filter (fun p => decide (w < p.id))).take L := by
    rw [List.take_take, Nat.min_eq_left (by omega)]
  have h2 : decide (L < ((db.filter (fun p => decide (w < p.id))).take (L + 1)).length) =
      decide (L < (db.filter (fun p => decide (w < p.id))).length) :=
    decide_eq_decide.mpr (by rw [List.length_take]; omega)
  rw [h1, h2]

/-- With more matches than fit the page, the next cursor encodes the last
returned key. -/
theorem list_page_next_cursor_of_has (db : List Product) (L : Nat) (w : Int)
    (hL : 1 ≤ L) (hn : L < (db.filter (fun p => decide (w < p.id))).length) :
    (list_page db L w).pagination.next_cursor =
      ((list_page db L w).data.getLast?).map (fun p => encode_cursor p.id) := by
  have hlen : ((db.filter (fun p => decide (w < p.id))).take L).length = L := by
    rw [List.length_take]
    omega
  obtain ⟨p, hp⟩ : ∃ p, ((db.filter (fun p => decide (w < p.id))).take L).getLast? = some p := by
    cases hgl : ((db.filter (fun p => decide (w < p.id))).take L).getLast? with
    | some p => exact ⟨p, rfl⟩
    | none =>
      rw [List.getLast?_eq_none_iff.mp hgl] at hlen
      simp at hlen
      omega
  rw [list_page_eq]
  rw [show decide (L < (db.filter (fun p => decide (w < p.id))).length) = true by
    exact decide_eq_true hn]
  rw [hp]
  rfl

/-- With at most a pageful of matches, no next cursor is produced. -/
theorem list_page_next_cursor_of_not (db : List Product) (L : Nat) (w : Int)
    (hn : ¬(L < (db.filter (fun p => decide (w < p.id))).length)) :
    (list_page db L w).pagination.next_cursor = none := by
  rw [list_page_eq]
  rw [show decide (L < (db.filter (fun p => decide (w < p.id))).length) = false by
    exact decide_eq_false hn]

instance : DecidableRel prodLt := fun p q => inferInstanceAs (Decidable (p.id < q.id))

/-- Three products with ascending keys (fields populated the way
`MOCK_PRODUCTS` populates them), for concrete witnesses. -/
def db3 : List Product :=
  [{ id := 1, name := "Product 1", category := "Clothing", in_stock := true },
   { id := 2, name := "Product 2", category := "Books", in_stock := true },
   { id := 3, name := "Product 3", category := "Home", in_stock := false }]

/-- **C4.** For an ordered collection (strictly increasing keys, the
total order the spec requires of the collection), watermark `w` (a
decoded cursor via `encode_cursor w`, or 0 when no cursor is given) and
limit `L` in the validated range, a single page request returns the first
`L` items whose key exceeds `w` in ascending key order; `has_next` is
true exactly when more than `L` items have key greater than `w`; and
`next_cursor` is the encoding of the last returned item's key when
`has_next` is true, and absent otherwise. -/
theorem claim4_single_page (db : List Product) (w : Int) (L : Nat)
    (hsort : List.Pairwise prodLt db) (hL : 1 ≤ L) (hw : 0 ≤ w) :
    get_products db L (some (encode_cursor w)) = .ok (list_page db L w) ∧
    get_products db L none = .ok (list_page db L 0) ∧
    (list_page db L w).data = (db.filter (fun p => decide (w < p.id))).take L ∧
    List.Pairwise prodLt (list_page db L w).data ∧
    ((list_page db L w).pagination.has_next = true ↔
      L < (db.filter (fun p => decide (w < p.id))).length) ∧
    ((list_page db L w).pagination.has_next = true →
      (list_page db L w).pagination.next_cursor =
        ((list_page db L w).data.getLast?).map (fun p => encode_cursor p.id)) ∧
    ((list_page db L w).pagination.has_next = false →
      (list_page db L w).pagination.next_cursor = none) := by
  refine ⟨get_products_encoded db L w hw, get_products_none db L, list_page_data db L w,
    ?_, ?_, ?_, ?_⟩
  · rw [list_page_data]
    exact hsort.sublist ((List.take_sublist _ _).trans (List.filter_sublist _))
  · rw [list_page_has_next]
    simp
  · intro hn
    rw [list_page_has_next, decide_eq_true_eq] at hn
    exact list_page_next_cursor_of_has db L w hL hn
  · intro hn
    rw [list_page_has_next] at hn
    exact list_page_next_cursor_of_not db L w (of_decide_eq_false hn)

/-- C4 at a concrete input: `db3`, watermark 1, limit 1. -/
theorem claim4_single_page_witness :
    List.Pairwise prodLt db3 ∧ 1 ≤ 1 ∧ (0 : Int) ≤ 1 ∧
    (get_products db3 1 (some (encode_cursor 1)) = .ok (list_page db3 1 1) ∧
     get_products db3 1 none = .ok (list_page db3 1 0) ∧
     (list_page db3 1 1).data = (db3.filter (fun p => decide ((1 : Int) < p.id))).take 1 ∧
     List.Pairwise prodLt (list_page db3 1 1).data ∧
     ((list_page db3 1 1).pagination.has_next = true ↔
       1 < (db3.filter (fun p => decide ((1 : Int) < p.id))).length) ∧
     ((list_page db3 1 1).pagination.has_next = true →
       (list_page db3 1 1).pagination.next_cursor =
         ((list_page db3 1 1).data.getLast?).map (fun p => encode_cursor p.id)) ∧
     ((list_page db3 1 1).pagination.has_next = false →
       (list_page db3 1 1).pagination.next_cursor = none)) :=
  ⟨by decide, by decide, by decide,
    claim4_single_page db3 1 1 (by decide) (by decide) (by decide)⟩

/-- **C5.** Requesting a page with a cursor whose decoded watermark
equals the key of the collection's last item returns an empty data list
with `has_next = false` and no `next_cursor`. -/
theorem claim5_page_after_last (db : List Product) (p : Product) (L : Nat)
    (hsort : List.Pairwise prodLt db) (hlast : db.getLast? = some p) (hp : 0 ≤ p.id) :
    get_products db L (some (encode_cursor p.id)) =
      .ok { data := [],
            pagination :=
              { limit := L, next_cursor := none, has_next := false, count := 0 } } := by
  rw [get_products_encoded db L p.id hp]
  have hfilter : db.filter (fun q => decide (p.id < q.id)) = [] := by
    rw [List.filter_eq_nil_iff]
    intro q hq
    have := id_le_getLast_of_sorted db p hsort hlast q hq
    simp
    omega
  rw [list_page_eq, hfilter]
  simp

/-- C5 at a concrete input: `db3` and the cursor of its last key 3. -/
theorem claim5_page_after_last_witness :
    List.Pairwise prodLt db3 ∧
    db3.getLast? =
      some { id := 3, name := "Product 3", category := "Home", in_stock := false } ∧
    get_products db3 10 (some (encode_cursor 3)) =
      .ok { data := [],
            pagination :=
              { limit := 10, next_cursor := none, has_next := false, count := 0 } } :=
  ⟨by decide, rfl,
    claim5_page_after_last db3
      { id := 3, name := "Product 3", category := "Home", in_stock := false } 10
      (by decide) rfl (by decide)⟩

/-- Following the cursor taken from a page's last item restricts the
collection to exactly the items the page did not cover: the filter at the
new watermark is the old filtered list with the page dropped. -/
theorem filter_step (db : List Product) (w : Int) (L : Nat) (p : Product)
    (hsort : List.Pairwise prodLt db)
    (hp : ((db.filter (fun q => decide (w < q.id))).take L).getLast? = some p) :
    db.filter (fun q => decide (p.id < q.id)) =
      (db.filter (fun q => decide (w < q.id))).drop L := by
  have hrem_sorted : List.Pairwise prodLt (db.filter (fun q => decide (w < q.id))) :=
    hsort.sublist (List.filter_sublist _)
  have htk_sorted : List.Pairwise prodLt ((db.filter (fun q => decide (w < q.id))).take L) :=
    hrem_sorted.sublist (List.take_sublist _ _)
  have hple : ∀ q ∈ (db.filter (fun q => decide (w < q.id))).take L, q.id ≤ p.id :=
    id_le_getLast_of_sorted _ p htk_sorted hp
  have hpmem : p ∈ (db.filter (fun q => decide (w < q.id))).take L :=
    List.mem_of_mem_getLast? (by rw [hp]; exact Option.mem_some_iff.mpr rfl)
  have hp_rem : p ∈ db.filter (fun q => decide (w < q.id)) :=
    (List.take_sublist _ _).subset hpmem
  have hwlt : w < p.id := of_decide_eq_true (List.mem_filter.mp hp_rem).2
  have hgt : ∀ q ∈ (db.filter (fun q => decide (w < q.id))).drop L, p.id < q.id := by
    intro q hq
    have hsplit : List.Pairwise prodLt
        ((db.filter (fun q => decide (w < q.id))).take L ++
          (db.filter (fun q => decide (w < q.id))).drop L) := by
      rw [List.take_append_drop]
      exact hrem_sorted
    exact (List.pairwise_append.mp hsplit).2.2 p hpmem q hq
  have hcongr : db.filter (fun q => decide (p.id < q.id)) =
      db.filter (fun a => decide (p.id < a.id) && decide (w < a.id)) := by
    refine List.filter_congr (fun a _ => ?_)
    by_cases h : p.id < a.id
    · simp [h, show w < a.id by omega]
    · simp [h]
  have hff : (db.filter (fun q => decide (w < q.id))).filter (fun q => decide (p.id < q.id)) =
      db.filter (fun a => decide (p.id < a.id) && decide (w < a.id)) :=
    List.filter_filter _ _
  rw [hcongr, ← hff]
  conv_lhs => rw [← List.take_append_drop L (db.filter (fun q => decide (w < q.id)))]
  rw [List.filter_append]
  rw [List.filter_eq_nil_iff.mpr (fun q hq => by
    have := hple q hq
    simp
    omega)]
  rw [List.filter_eq_self.mpr (fun q hq => decide_eq_true (hgt q hq))]
  rfl

/-- The page sizes the fetch-one-extra policy produces for `n` remaining
items at limit `L`: full pages of `L` and a final page of what is left
(an empty final page only when nothing remained at all). -/
def pageSizes : Nat → Nat → Nat → List Nat
  | 0, _, _ => []
  | fuel + 1, n, L => if n ≤ L then [n] else L :: pageSizes fuel (n - L) L

/-- The client loop from an arbitrary watermark: with enough fuel it
terminates (`some`) on a `has_next = false` page, the concatenation of
the pages is exactly the part of the collection past the watermark, and
the page sizes follow the fetch-one-extra policy. -/
theorem followPages_main :
    ∀ (fuel : Nat) (db : List Product) (L : Nat) (w : Int) (cur : Option String),
      List.Pairwise prodLt db → (∀ p ∈ db, 1 ≤ p.id) → 1 ≤ L → 0 ≤ w →
      (cur = none ∧ w = 0 ∨ cur = some (encode_cursor w)) →
      (db.filter (fun p => decide (w < p.id))).length < fuel →
      ∃ pages, followPages db L fuel cur = some pages ∧
        pages.flatten = db.filter (fun p => decide (w < p.id)) ∧
        pages.map List.length =
          pageSizes fuel (db.filter (fun p => decide (w < p.id))).length L := by
  intro fuel
  induction fuel with
  | zero => intro db L w cur _ _ _ _ _ hlen; omega
  | succ fuel ih =>
    intro db L w cur hsort hpos hL hw hcur hlen
    have hget : get_products db L cur = .ok (list_page db L w) := by
      rcases hcur with ⟨rfl, rfl⟩ | rfl
      · exact get_products_none db L
      · exact get_products_encoded db L w hw
    by_cases hmore : L < (db.filter (fun p => decide (w < p.id))).length
    · have hhn : (list_page db L w).pagination.has_next = true := by
        rw [list_page_has_next]
        exact decide_eq_true hmore
      obtain ⟨p, hp⟩ :
          ∃ p, ((db.filter (fun p => decide (w < p.id))).take L).getLast? = some p := by
        cases hgl : ((db.filter (fun p => decide (w < p.id))).take L).getLast? with
        | some p => exact ⟨p, rfl⟩
        | none =>
          have h0 := List.getLast?_eq_none_iff.mp hgl
          have : ((db.filter (fun p => decide (w < p.id))).take L).length = L := by
            rw [List.length_take]
            omega
          rw [h0] at this
          simp at this
          omega
      have hnc : (list_page db L w).pagination.next_cursor = some (encode_cursor p.id) := by
        rw [list_page_next_cursor_of_has db L w hL hmore, list_page_data, hp]
        rfl
      have hpdb : p ∈ db := by
        have h1 : p ∈ (db.filter (fun p => decide (w < p.id))).take L :=
          List.mem_of_mem_getLast? (by rw [hp]; exact Option.mem_some_iff.mpr rfl)
        exact (List.filter_sublist _).subset ((List.take_sublist _ _).subset h1)
      have hpid : 1 ≤ p.id := hpos p hpdb
      have hstep := filter_step db w L p hsort hp
      obtain ⟨pages, hpages, hflat, hsizes⟩ :=
        ih db L p.id (some (encode_cursor p.id)) hsort hpos hL (by omega) (Or.inr rfl)
          (by rw [hstep, List.length_drop]; omega)
      have hflatlen : pages.flatten.length = (db.filter (fun q => decide (p.id < q.id))).length :=
        congrArg List.length hflat
      refine ⟨(list_page db L w).data :: pages, ?_, ?_, ?_⟩
      · rw [followPages, hget]
        show (if (list_page db L w).pagination.has_next = true then
            match followPages db L fuel (list_page db L w).pagination.next_cursor with
            | some rest => some ((list_page db L w).data :: rest)
            | none => none
          else some [(list_page db L w).data]) = some ((list_page db L w).data :: pages)
        rw [if_pos hhn, hnc, hpages]
      · rw [List.flatten_cons, hflat, list_page_data, hstep]
        exact List.take_append_drop L _
      · rw [pageSizes, if_neg (by omega)]
        rw [List.map_cons, hsizes]
        rw [hstep, List.length_drop] at hflatlen ⊢
        rw [list_page_data, List.length_take, Nat.min_eq_left (by omega)]
    · have hhn : (list_page db L w).pagination.has_next = false := by
        rw [list_page_has_next]
        exact decide_eq_false hmore
      refine ⟨[(list_page db L w).data], ?_, ?_, ?_⟩
      · rw [followPages, hget]
        show (if (list_page db L w).pagination.has_next = true then
            match followPages db L fuel (list_page db L w).pagination.next_cursor with
            | some rest => some ((list_page db L w).data :: rest)
            | none => none
          else some [(list_page db L w).data]) = some [(list_page db L w).data]
        rw [hhn]
        simp
      · rw [list_page_data, List.take_of_length_le
          (show (db.filter (fun p => decide (w < p.id))).length ≤ L by omega)]
        simp
      · rw [pageSizes, if_pos (by omega)]
        rw [list_page_data, List.map_cons, List.map_nil, List.length_take,
          Nat.min_eq_right (by omega)]

/-- A single-item collection whose integer key is 0: strictly increasing
integer keys, yet unreachable from the sentinel start watermark 0. -/
def db0 : List Product :=
  [{ id := 0, name := "Product 0", category := "Electronics", in_stock := true }]

/-- Counterexample to C3 as stated: over `db0` (strictly increasing
*integer* keys, limit 1 in 1..100) the iteration from the empty start
terminates at once with a single empty page — the item with key 0 is
never enumerated, because the sentinel start watermark is already 0. -/
theorem claim3_counterexample :
    List.Pairwise prodLt db0 ∧ (1 ≤ 1 ∧ 1 ≤ 100) ∧ db0.length = 1 ∧
    followPages db0 1 (db0.length + 1) none = some [[]] :=
  ⟨by decide, ⟨by decide, by decide⟩, rfl, rfl⟩

/-- **C3 (amended: keys positive).** For every ordered collection with
strictly increasing *positive* integer keys and every limit `L` in
1..100, starting with no cursor and repeatedly requesting the next page
via the returned `next_cursor` enumerates every item exactly once
(`pages.flatten = db`), in ascending key order, and the iteration
terminates with `has_next = false` (that is what `followPages ... = some
pages` asserts); the page sizes follow the fetch-one-extra policy, so a
101-item collection with `L = 10` takes exactly 11 pages: 10 pages of 10
items and a final page of 1 item. -/
theorem claim3_full_enumeration (db : List Product) (L : Nat)
    (hsort : List.Pairwise prodLt db) (hpos : ∀ p ∈ db, 1 ≤ p.id)
    (hL1 : 1 ≤ L) (hL2 : L ≤ 100) :
    (∃ pages, followPages db L (db.length + 1) none = some pages ∧
      pages.flatten = db ∧ List.Pairwise prodLt pages.flatten ∧
      pages.map List.length = pageSizes (db.length + 1) db.length L) ∧
    (db.length = 101 → L = 10 →
      ∃ pages, followPages db L (db.length + 1) none = some pages ∧
        pages.flatten = db ∧
        pages.map List.length = List.replicate 10 10 ++ [1] ∧
        pages.length = 11) := by
  have hfull : db.filter (fun p => decide ((0 : Int) < p.id)) = db :=
    List.filter_eq_self.mpr (fun p hp => decide_eq_true (by have := hpos p hp; omega))
  have hmain := followPages_main (db.length + 1) db L 0 none hsort hpos hL1 (le_refl 0)
    (Or.inl ⟨rfl, rfl⟩) (by rw [hfull]; omega)
  rw [hfull] at hmain
  obtain ⟨pages, h1, h2, h3⟩ := hmain
  constructor
  · exact ⟨pages, h1, h2, h2 ▸ hsort, h3⟩
  · intro hlen hLeq
    subst hLeq
    refine ⟨pages, h1, h2, ?_, ?_⟩
    · rw [h3, hlen]
      decide
    · have hlm := congrArg List.length h3
      rw [List.length_map, hlen] at hlm
      rw [hlm]
      decide

/-- C3 at a concrete input: `db3` with limit 1. -/
theorem claim3_full_enumeration_witness :
    List.Pairwise prodLt db3 ∧ (∀ p ∈ db3, 1 ≤ p.id) ∧ (1 ≤ 1 ∧ 1 ≤ 100) ∧
    ((∃ pages, followPages db3 1 (db3.length + 1) none = some pages ∧
        pages.flatten = db3 ∧ List.Pairwise prodLt pages.flatten ∧
        pages.map List.length = pageSizes (db3.length + 1) db3.length 1) ∧
     (db3.length = 101 → 1 = 10 →
       ∃ pages, followPages db3 1 (db3.length + 1) none = some pages ∧
         pages.flatten = db3 ∧
         pages.map List.length = List.replicate 10 10 ++ [1] ∧
         pages.length = 11)) :=
  ⟨by decide, by decide, ⟨by decide, by decide⟩,
    claim3_full_enumeration db3 1 (by decide) (by decide) (by decide) (by decide)⟩
